/-
Verification of the planning + DAG-execution core of the real-estate
agentic orchestrator:
  - orchestrator/planner.py        (DeterministicPlanner.build_plan)
  - orchestrator/dag_executor.py   (DAGExecutor.execute_dag and its
                                    placeholder-resolution helpers)

Python data values flowing through payload templates and task results are
JSON-like (None, bool, int, str, list, dict); they are embedded as the
inductive type `Val`.  Python dicts are embedded as association lists in
insertion order (Python dicts preserve insertion order and have unique
keys).  The network interaction performed inside `_call_agent`
(HTTP fetch of the agent card, message send, response model-dump and
content re-parsing) is abstracted as an oracle `Net` giving, for a task
and its resolved payload, either the processed response data or the
exception message; the surrounding success / error wrapping of
`_call_agent` — which determines the shape of the stored record — is
embedded faithfully.
-/
import Mathlib

set_option autoImplicit false

namespace RealEstate

/-- JSON-like Python value. -/
inductive Val where
  | null
  | bool (b : Bool)
  | int (n : Int)
  | str (s : String)
  | list (xs : List Val)
  | dict (kvs : List (String × Val))

/-- Python `d[k]` / `k in d` on an insertion-ordered dict: first (unique)
matching key. -/
def alistLookup {α : Type} : List (String × α) → String → Option α
  | [], _ => Option.none
  | (k, v) :: rest, key => if k == key then some v else alistLookup rest key

/-- Python `d[k] = v` on an insertion-ordered dict: overwrite in place if
the key exists, else append. -/
def alistStore {α : Type} : List (String × α) → String → α → List (String × α)
  | [], k, v => [(k, v)]
  | (k', v') :: rest, k, v =>
      if k' == k then (k, v) :: rest else (k', v') :: alistStore rest k v

/-- Characters stripped by Python `str.strip("\x7b\x7d")`. -/
def isBraceChar (c : Char) : Bool := c == Char.ofNat 123 || c == Char.ofNat 125

/-- Python `str.strip(chars)` on the character list: drop characters
satisfying `p` from both ends. -/
def stripList (p : Char → Bool) (l : List Char) : List Char :=
  ((l.dropWhile p).reverse.dropWhile p).reverse

/-- Test whether `pat` occurs at the start of `l`. -/
def startsWithList : List Char → List Char → Bool
  | [], _ => true
  | _ :: _, [] => false
  | p :: ps, x :: xs => p == x && startsWithList ps xs

/-- Test whether `pat` occurs anywhere in `l`. -/
def containsSubList (pat : List Char) : List Char → Bool
  | [] => startsWithList pat []
  | x :: xs => startsWithList pat (x :: xs) || containsSubList pat xs

/-- Python `sub in s` substring test. -/
def pyContains (s sub : String) : Bool := containsSubList sub.toList s.toList

/-- Python `str.split(sep)` for a single-character separator `c`
(always returns at least one, possibly empty, chunk). -/
def splitOnChar (c : Char) : List Char → List (List Char)
  | [] => [[]]
  | x :: xs =>
      match splitOnChar c xs with
      | [] => [[]]
      | g :: gs => if x == c then [] :: g :: gs else (x :: g) :: gs

/-- Navigation loop of `DAGExecutor._resolve_placeholder`: for each
remaining path segment, a dict does a key lookup (`KeyError` when the key
is missing, modelled as `Except.error`), while any non-dict value goes
through `getattr(result, part, None)`, which on JSON data yields `None`
and never raises. -/
def walkPath : Val → List String → Except Unit Val
  | r, [] => Except.ok r
  | Val.dict kvs, part :: rest =>
      match alistLookup kvs part with
      | some v => walkPath v rest
      | Option.none => Except.error ()
  | _, _ :: rest => walkPath Val.null rest

/-- Path computed by `_resolve_placeholder`:
`placeholder.strip("\x7b\x7d").strip().split(".")`. -/
def placeholderParts (placeholder : String) : List String :=
  (splitOnChar '.' (stripList Char.isWhitespace (stripList isBraceChar placeholder.toList))).map String.mk

/-- Embedding of `DAGExecutor._resolve_placeholder`.  `parts` is never
empty (`str.split` always returns at least one element), so `headD ""`
is exactly `parts[0]`. -/
def resolvePlaceholder (task_results : List (String × Val)) (placeholder : String) : Val :=
  let parts := placeholderParts placeholder
  let task_id := parts.headD ""
  match alistLookup task_results task_id with
  | Option.none => Val.str placeholder
  | some result =>
      match walkPath result parts.tail with
      | Except.ok v => v
      | Except.error _ => Val.str placeholder

/-- Embedding of `DAGExecutor._resolve_payload_template`: each entry is
mapped independently; a string value containing both markers is replaced
by its placeholder resolution, every other value passes through. -/
def resolvePayloadTemplate (task_results : List (String × Val))
    (payload_template : List (String × Val)) : List (String × Val) :=
  payload_template.map fun kv =>
    match kv.2 with
    | Val.str s =>
        if pyContains s "\x7b\x7b" && pyContains s "\x7d\x7d"
        then (kv.1, resolvePlaceholder task_results s)
        else kv
    | _ => kv

example : resolvePlaceholder [("t1", Val.dict [("a", Val.int 5)])] "\x7b\x7bt1.a.b\x7d\x7d" = Val.null := rfl

example :
    resolvePlaceholder
      [("t1_search", Val.dict [("candidates", Val.dict [("ids", Val.list [Val.str "l1", Val.str "l2"])])])]
      "\x7b\x7bt1_search.candidates.ids\x7d\x7d"
      = Val.list [Val.str "l1", Val.str "l2"] := rfl

example :
    resolvePlaceholder
      [("t1_search", Val.dict [("candidates", Val.dict [("ids", Val.list [Val.str "l1", Val.str "l2"])])])]
      "\x7b\x7bt1_search.candidates.missing\x7d\x7d"
      = Val.str "\x7b\x7bt1_search.candidates.missing\x7d\x7d" := rfl

/-- Embedding of `planner.DAGTask` (pydantic model; field defaults as in
the source). -/
structure DAGTask where
  task_id : String
  task_type : String
  payload_template : List (String × Val)
  depends_on : List String := []
  timeout_ms : Nat := 5000
  parallel_for : Option String := Option.none
  agent_prompt : Option String := Option.none

/-- Embedding of `planner.PlannerOutput`. -/
structure PlannerOutput where
  dag : List DAGTask
  planner_meta : List (String × Val)

def VERSION : String := "planner-v2.0.0"

def STRATEGY : String := "deterministic-rule-based"

mutual

/-- Python `repr` of a JSON-like value (used by `str` on containers). -/
def pyRepr : Val → String
  | Val.null => "None"
  | Val.bool true => "True"
  | Val.bool false => "False"
  | Val.int n => toString n
  | Val.str s => "\x27" ++ s ++ "\x27"
  | Val.list xs => "[" ++ String.intercalate ", " (pyReprList xs) ++ "]"
  | Val.dict kvs => "\x7b" ++ String.intercalate ", " (pyReprDict kvs) ++ "\x7d"

def pyReprList : List Val → List String
  | [] => []
  | v :: vs => pyRepr v :: pyReprList vs

def pyReprDict : List (String × Val) → List String
  | [] => []
  | (k, v) :: kvs => ("\x27" ++ k ++ "\x27: " ++ pyRepr v) :: pyReprDict kvs

end

/-- Python `str()` of a JSON-like value. -/
def pyStr : Val → String
  | Val.str s => s
  | v => pyRepr v

mutual

/-- Python `json.dumps(..., ensure_ascii=False)` of a JSON-like value
(string escaping elided; no claim inspects the serialized text). -/
def pyJsonDumps : Val → String
  | Val.null => "null"
  | Val.bool true => "true"
  | Val.bool false => "false"
  | Val.int n => toString n
  | Val.str s => "\"" ++ s ++ "\""
  | Val.list xs => "[" ++ String.intercalate ", " (pyJsonDumpsList xs) ++ "]"
  | Val.dict kvs => "\x7b" ++ String.intercalate ", " (pyJsonDumpsDict kvs) ++ "\x7d"

def pyJsonDumpsList : List Val → List String
  | [] => []
  | v :: vs => pyJsonDumps v :: pyJsonDumpsList vs

def pyJsonDumpsDict : List (String × Val) → List String
  | [] => []
  | (k, v) :: kvs => ("\"" ++ k ++ "\": " ++ pyJsonDumps v) :: pyJsonDumpsDict kvs

end

/-- Embedding of `DeterministicPlanner._norm`: `slots.get(name)` is `None`
both when the key is absent and when the stored value is `None`; only a
non-`None` value is rendered with `str`. -/
def norm (slots : List (String × Val)) (name : String) (default : String := "") : String :=
  match alistLookup slots name with
  | some Val.null => default
  | some v => pyStr v
  | Option.none => default

def prompt_search (slots : List (String × Val)) : String :=
  "Search for real estate listings matching the user\x27s criteria.\n" ++
  "Criteria (raw slots): " ++ pyJsonDumps (Val.dict slots) ++ "\n" ++
  "Map slots to provider query params. Return up to 25 high-quality candidates with fields: id, title, location, price_inr, source, rera_status, builder_name.\n" ++
  "If budget missing, still retrieve representative spectrum. If location vague (e.g., \x27metro\x27), interpret as near transit hubs."

def prompt_legal : String :=
  "Perform regulatory & compliance (legal_check) screening over candidate listings.\n" ++
  "Input listing_ids come from previous search task.\n" ++
  "Check: RERA registration, land title clarity, litigation flags, builder reputation signals, embargo / restricted zones.\n" ++
  "Output JSON per listing id with fields: listing_id, rera_status, legal_risk_level (LOW|MEDIUM|HIGH), issues (array of short codes)."

def prompt_valuation : String :=
  "Run valuation_analysis for each candidate listing to estimate fair price range.\n" ++
  "Use comparable sales, locality average PSF, builder track record.\n" ++
  "Output: listing_id, estimated_value_inr, low_inr, high_inr, valuation_confidence (0-1), methodology_notes (short)."

def prompt_verification : String :=
  "Execute verification_scan to detect anomalies or fraud patterns in candidate listings.\n" ++
  "Heuristics: price too low relative to comps, duplicate contact numbers, suspicious recently created builder entity.\n" ++
  "Output: listing_id, anomaly_score (0-1), flags (array of short strings)."

def prompt_summary (task_ids : List String) (_intent : String) (_slots : List (String × Val)) : String :=
  "Synthesize results across enrichment tasks into a concise user-facing summary.\n" ++
  "Aggregate from tasks: " ++ String.intercalate ", " task_ids ++ ".\n" ++
  "Highlight top 5 listings (balanced by legal risk LOW & high valuation confidence).\n" ++
  "Include any HIGH risk warnings and valuation ranges. Provide next recommended user actions."

def include_search (intent : String) : Bool :=
  intent == "find_listings" || intent == "legal_verification" || intent == "compare_locations"

def include_legal (intent : String) : Bool :=
  intent == "find_listings" || intent == "legal_verification"

def include_valuation (intent : String) : Bool :=
  intent == "find_listings" || intent == "price_forecast" || intent == "compare_locations"

def include_verification (intent : String) : Bool :=
  intent == "find_listings" || intent == "legal_verification" || intent == "compare_locations"

/-- Embedding of `DeterministicPlanner.build_plan` (`enable_summary` is the
planner's constructor flag).  Tasks are appended in the source's order:
search, legal, valuation, verification, summarization, then the fallback
when the list is still empty. -/
def build_plan (enable_summary : Bool) (request_id : String) (intent : String)
    (slots : List (String × Val)) : PlannerOutput :=
  let tasks0 : List DAGTask := []
  let tasks1 :=
    if include_search intent then
      tasks0 ++ [{
        task_id := "t1_search",
        task_type := "search_listings",
        payload_template := [
          ("property_type", Val.str (norm slots "property_type")),
          ("max_price_inr", (alistLookup slots "max_price_inr").getD Val.null),
          ("near", Val.str (norm slots "near" (norm slots "location"))),
          ("raw_slots", Val.dict slots)],
        depends_on := [],
        timeout_ms := 7000,
        agent_prompt := some (prompt_search slots) }]
    else tasks0
  let tasks2 :=
    if include_legal intent && include_search intent then
      tasks1 ++ [{
        task_id := "t2_legal",
        task_type := "legal_check",
        payload_template := [("listing_ids", Val.str "\x7b\x7bt1_search.candidates.ids\x7d\x7d")],
        depends_on := ["t1_search"],
        timeout_ms := 8000,
        parallel_for := some "candidates",
        agent_prompt := some prompt_legal }]
    else if include_legal intent then
      tasks1 ++ [{
        task_id := "t1_legal",
        task_type := "legal_check",
        payload_template := [("listing_ids", (alistLookup slots "listing_ids").getD (Val.list []))],
        depends_on := [],
        timeout_ms := 6000,
        agent_prompt := some prompt_legal }]
    else tasks1
  let tasks3 :=
    if include_valuation intent && include_search intent then
      tasks2 ++ [{
        task_id := if tasks2.any (fun t => t.task_id == "t2_legal") then "t3_valuation" else "t2_valuation",
        task_type := "valuation_analysis",
        payload_template := [
          ("listing_ids", Val.str "\x7b\x7bt1_search.candidates.ids\x7d\x7d"),
          ("property_type", Val.str (norm slots "property_type")),
          ("max_price_inr", (alistLookup slots "max_price_inr").getD Val.null)],
        depends_on := ["t1_search"],
        timeout_ms := 7500,
        parallel_for := some "candidates",
        agent_prompt := some prompt_valuation }]
    else if include_valuation intent then
      tasks2 ++ [{
        task_id := "t1_valuation",
        task_type := "valuation_analysis",
        payload_template := [
          ("listing_ids", (alistLookup slots "listing_ids").getD (Val.list [])),
          ("property_type", Val.str (norm slots "property_type")),
          ("max_price_inr", (alistLookup slots "max_price_inr").getD Val.null)],
        depends_on := [],
        timeout_ms := 6500,
        agent_prompt := some prompt_valuation }]
    else tasks2
  let tasks4 :=
    if include_verification intent && include_search intent then
      tasks3 ++ [{
        task_id :=
          if tasks3.any (fun t => t.task_type == "valuation_analysis") then "t4_verification"
          else if tasks3.any (fun t => t.task_type == "legal_check") then "t3_verification"
          else "t2_verification",
        task_type := "verification_scan",
        payload_template := [("listing_ids", Val.str "\x7b\x7bt1_search.candidates.ids\x7d\x7d")],
        depends_on := ["t1_search"],
        timeout_ms := 6000,
        parallel_for := some "candidates",
        agent_prompt := some prompt_verification }]
    else if include_verification intent then
      tasks3 ++ [{
        task_id := "t1_verification",
        task_type := "verification_scan",
        payload_template := [("listing_ids", (alistLookup slots "listing_ids").getD (Val.list []))],
        depends_on := [],
        timeout_ms := 5000,
        agent_prompt := some prompt_verification }]
    else tasks3
  let tasks5 :=
    if enable_summary && !tasks4.isEmpty then
      let upstream := (tasks4.filter (fun t => t.task_type != "summarization")).map (fun t => t.task_id)
      tasks4 ++ [{
        task_id := "t_final_summary",
        task_type := "summarization",
        payload_template := [
          ("upstream_tasks", Val.list (upstream.map Val.str)),
          ("original_intent", Val.str intent),
          ("original_slots", Val.dict slots)],
        depends_on := upstream,
        timeout_ms := 4000,
        agent_prompt := some (prompt_summary upstream intent slots) }]
    else tasks4
  let tasks6 :=
    if tasks5.isEmpty then
      tasks5 ++ [{
        task_id := "t1_generic",
        task_type := "generic_handler",
        payload_template := [("original_slots", Val.dict slots)],
        depends_on := [],
        timeout_ms := 3000,
        agent_prompt := some ("Handle the user request generically; intent was not recognized with confidence. " ++
          "Extract any actionable real-estate signals.") }]
    else tasks5
  { dag := tasks6,
    planner_meta := [
      ("version", Val.str VERSION),
      ("strategy", Val.str STRATEGY),
      ("request_id", Val.str request_id),
      ("intent", Val.str intent)] }

example :
    ((build_plan true "r" "find_listings" []).dag.map (fun t => t.task_id)) =
      ["t1_search", "t2_legal", "t3_valuation", "t4_verification", "t_final_summary"] := rfl

example :
    ((build_plan true "r" "compare_locations" []).dag.map (fun t => t.task_id)) =
      ["t1_search", "t2_valuation", "t4_verification", "t_final_summary"] := rfl

example :
    ((build_plan true "r" "unknown" []).dag.map (fun t => t.task_id)) = ["t1_generic"] := rfl

example :
    ((build_plan true "r" "legal_verification" []).dag.map (fun t => t.task_id)) =
      ["t1_search", "t2_legal", "t3_verification", "t_final_summary"] := rfl

example :
    ((build_plan true "r" "price_forecast" []).dag.map (fun t => t.task_id)) =
      ["t1_valuation", "t_final_summary"] := rfl

/-- Routing table from `DAGExecutor.__init__` (only `search_listings` is
configured; the other entries are commented out in the source). -/
def agent_endpoints : List (String × String) := [("search_listings", "http://localhost:9001")]

/-- Oracle for the network interaction inside `_call_agent`: for a task
and its resolved payload, either the processed response data of the send,
or the message of the exception the attempt raised. -/
def Net : Type := DAGTask → List (String × Val) → Except String Val

/-- Embedding of `DAGExecutor._call_agent`: the try-block outcome is given
by the oracle; a success is wrapped as the status/agent/endpoint/response
dict, any exception is caught and wrapped as the status/agent/endpoint/error
dict — `_call_agent` itself never raises. -/
def call_agent (net : Net) (task : DAGTask) (endpoint : String)
    (payload : List (String × Val)) : Val :=
  match net task payload with
  | Except.ok response_data =>
      Val.dict [
        ("status", Val.str "success"),
        ("agent", Val.str task.task_type),
        ("endpoint", Val.str endpoint),
        ("response", response_data)]
  | Except.error e =>
      Val.dict [
        ("status", Val.str "error"),
        ("agent", Val.str task.task_type),
        ("endpoint", Val.str endpoint),
        ("error", Val.str e)]

/-- Embedding of `DAGExecutor._execute_task`: a `ValueError` for an
unconfigured task type is the only exception this raises (payload
resolution never raises, `_call_agent` catches its own). -/
def execute_task (net : Net) (task_results : List (String × Val)) (task : DAGTask) :
    Except String Val :=
  match alistLookup agent_endpoints task.task_type with
  | Option.none => Except.error ("No endpoint configured for task type: " ++ task.task_type)
  | some endpoint =>
      Except.ok (call_agent net task endpoint (resolvePayloadTemplate task_results task.payload_template))

/-- Mutable executor state inside `execute_dag`: the `executed_tasks` set
(kept as its insertion-ordered, duplicate-free element list), the
`task_results` dict, and a journal recording every write into
`task_results` in order (instrumentation; the code's writes are the
journal's entries). -/
structure ExecState where
  executed : List String
  task_results : List (String × Val)
  journal : List (String × Val)

/-- Python `set.add` on the insertion-ordered element list. -/
def addExecuted (executed : List String) (id : String) : List String :=
  if executed.contains id then executed else executed ++ [id]

/-- Store a concluded task's record and mark the task executed (the two
statements each `for` iteration of `execute_dag` performs in both the
success and the exception branch). -/
def concludeTask (st : ExecState) (id : String) (record : Val) : ExecState :=
  { executed := addExecuted st.executed id,
    task_results := alistStore st.task_results id record,
    journal := st.journal ++ [(id, record)] }

/-- One iteration of the `for task in ready_tasks` body: attempt the task;
on success store the response, on exception store the error record; either
way the task is concluded. -/
def runTask (net : Net) (st : ExecState) (task : DAGTask) : ExecState :=
  match execute_task net st.task_results task with
  | Except.ok result => concludeTask st task.task_id result
  | Except.error e =>
      concludeTask st task.task_id
        (Val.dict [("error", Val.str e), ("status", Val.str "failed")])

/-- The `for task in ready_tasks` loop (sequential; later tasks in the
same batch see the results stored by earlier ones). -/
def runBatch (net : Net) (st : ExecState) : List DAGTask → ExecState
  | [] => st
  | t :: ts => runBatch net (runTask net st t) ts

/-- Ready-task scan of `execute_dag`: not yet executed, and every
dependency already concluded (a failed dependency counts — it is in
`executed_tasks` too). -/
def readyTasks (dag : List DAGTask) (executed : List String) : List DAGTask :=
  dag.filter fun task =>
    !(executed.contains task.task_id) && task.depends_on.all (fun dep => executed.contains dep)

/-- Embedding of the report dict `execute_dag` returns (`status`,
`task_results`, and the `execution_summary` counts). -/
structure ExecReport where
  status : String
  task_results : List (String × Val)
  total_tasks : Nat
  successful_tasks : Nat
  failed_tasks : Nat

/-- Python `"error" in r` for a stored task result.  Both store sites of
`execute_dag` store dicts (`_call_agent`'s wrapper or the error record),
so only the dict case is reachable. -/
def hasErrorKey : Val → Bool
  | Val.dict kvs => (alistLookup kvs "error").isSome
  | _ => false

def mkReport (dag : List DAGTask) (task_results : List (String × Val)) : ExecReport :=
  { status := "completed",
    task_results := task_results,
    total_tasks := dag.length,
    successful_tasks := (task_results.filter (fun kv => !(hasErrorKey kv.2))).length,
    failed_tasks := (task_results.filter (fun kv => hasErrorKey kv.2)).length }

/-- Possible outcomes of the `while` loop of `execute_dag`: the report, the
`RuntimeError` raised for circular / unresolvable dependencies, or fuel
exhaustion of the embedding (shown unreachable for sufficient fuel). -/
inductive ExecOutcome where
  | report (r : ExecReport)
  | circular
  | outOfFuel

/-- The `while len(executed_tasks) < len(planner_output.dag)` loop,
fuel-bounded.  Each pass either returns the report (loop condition false),
raises on an empty ready scan, or runs the ready batch and repeats. -/
def execLoop (net : Net) (dag : List DAGTask) : Nat → ExecState → ExecOutcome × ExecState
  | 0, st =>
    if dag.length ≤ st.executed.length then (ExecOutcome.report (mkReport dag st.task_results), st)
    else (ExecOutcome.outOfFuel, st)
  | fuel + 1, st =>
    if dag.length ≤ st.executed.length then (ExecOutcome.report (mkReport dag st.task_results), st)
    else if (readyTasks dag st.executed).isEmpty then (ExecOutcome.circular, st)
    else execLoop net dag fuel (runBatch net st (readyTasks dag st.executed))

/-- Embedding of `DAGExecutor.execute_dag` on an executor whose
`task_results` currently holds `init` (the dict is instance state,
initialized empty in `__init__` and never cleared by `execute_dag`).
`dag.length` units of fuel are enough: each pass of the loop body grows
`executed_tasks`. -/
def execute_dag_from (net : Net) (init : List (String × Val)) (planner_output : PlannerOutput) :
    ExecOutcome × ExecState :=
  execLoop net planner_output.dag planner_output.dag.length
    { executed := [], task_results := init, journal := [] }

/-- Embedding of the module-level convenience `execute_dag`: a fresh
executor (empty results table), report only. -/
def execute_dag (net : Net) (planner_output : PlannerOutput) : ExecOutcome :=
  (execute_dag_from net [] planner_output).1

/-- Task `A` of the failed-dependency scenario: its task type has no
routing entry, so its attempt raises `ValueError` and the error record is
stored. -/
def taskA : DAGTask :=
  { task_id := "A", task_type := "legal_check", payload_template := [], depends_on := [] }

/-- Task `B` of the failed-dependency scenario: depends on `A` and
references a field of `A`'s result through a placeholder. -/
def taskB : DAGTask :=
  { task_id := "B", task_type := "search_listings",
    payload_template := [("x", Val.str "\x7b\x7bA.response.x\x7d\x7d")],
    depends_on := ["A"] }

def planAB : PlannerOutput := { dag := [taskA, taskB], planner_meta := [] }

/-- Network oracle that answers every call by echoing the resolved payload
it received. -/
def netEcho : Net := fun _ payload => Except.ok (Val.dict payload)

/-- Error record `execute_dag` stores for task `A` of the scenario. -/
def recA : Val :=
  Val.dict [
    ("error", Val.str "No endpoint configured for task type: legal_check"),
    ("status", Val.str "failed")]

/-- Success record stored for task `B`: its placeholder resolved to the
literal placeholder string, because `A`'s error record has no `response`
key. -/
def recB : Val :=
  Val.dict [
    ("status", Val.str "success"),
    ("agent", Val.str "search_listings"),
    ("endpoint", Val.str "http://localhost:9001"),
    ("response", Val.dict [("x", Val.str "\x7b\x7bA.response.x\x7d\x7d")])]

example :
    execute_dag netEcho planAB =
      ExecOutcome.report
        { status := "completed", task_results := [("A", recA), ("B", recB)],
          total_tasks := 2, successful_tasks := 1, failed_tasks := 1 } := rfl

/-- Cyclic two-task plan: `C` depends on `D` and `D` on `C`. -/
def cyclePlan : PlannerOutput :=
  { dag := [
      { task_id := "C", task_type := "search_listings", payload_template := [], depends_on := ["D"] },
      { task_id := "D", task_type := "search_listings", payload_template := [], depends_on := ["C"] }],
    planner_meta := [] }

example : ∀ net : Net, execute_dag net cyclePlan = ExecOutcome.circular := fun _ => rfl

/-- Four independent tasks for the report-count scenario. -/
def plan4 : PlannerOutput :=
  { dag := [
      { task_id := "T1", task_type := "search_listings", payload_template := [], depends_on := [] },
      { task_id := "T2", task_type := "search_listings", payload_template := [], depends_on := [] },
      { task_id := "T3", task_type := "search_listings", payload_template := [], depends_on := [] },
      { task_id := "T4", task_type := "search_listings", payload_template := [], depends_on := [] }],
    planner_meta := [] }

/-- Oracle for the report-count scenario: exactly the call for `T2`
raises. -/
def net4 : Net := fun task _ =>
  if task.task_id == "T2" then Except.error "boom" else Except.ok Val.null

/-- Success record of a `search_listings` task whose response is `None`. -/
def recOkNull : Val :=
  Val.dict [
    ("status", Val.str "success"),
    ("agent", Val.str "search_listings"),
    ("endpoint", Val.str "http://localhost:9001"),
    ("response", Val.null)]

/-- Record stored for `T2`: `_call_agent` caught the invocation failure
and returned the error dict, which is stored through the success path. -/
def recErrBoom : Val :=
  Val.dict [
    ("status", Val.str "error"),
    ("agent", Val.str "search_listings"),
    ("endpoint", Val.str "http://localhost:9001"),
    ("error", Val.str "boom")]

example :
    execute_dag net4 plan4 =
      ExecOutcome.report
        { status := "completed",
          task_results := [("T1", recOkNull), ("T2", recErrBoom), ("T3", recOkNull), ("T4", recOkNull)],
          total_tasks := 4, successful_tasks := 3, failed_tasks := 1 } := rfl

def planX : PlannerOutput :=
  { dag := [{ task_id := "X", task_type := "search_listings", payload_template := [], depends_on := [] }],
    planner_meta := [] }

def planY : PlannerOutput :=
  { dag := [{ task_id := "Y", task_type := "search_listings", payload_template := [], depends_on := [] }],
    planner_meta := [] }

def netNull : Net := fun _ _ => Except.ok Val.null

example :
    (execute_dag_from netNull
        ((execute_dag_from netNull [] planX).2.task_results) planY).1 =
      ExecOutcome.report
        { status := "completed",
          task_results := [("X", recOkNull), ("Y", recOkNull)],
          total_tasks := 1, successful_tasks := 2, failed_tasks := 0 } := rfl

/-! ### Lemmas about the dict / set primitives -/

theorem alistLookup_isSome_of_mem {α : Type} (l : List (String × α)) (x : String)
    (h : x ∈ l.map Prod.fst) : (alistLookup l x).isSome = true := by
  induction l with
  | nil => simp at h
  | cons kv rest ih =>
      obtain ⟨k, v⟩ := kv
      simp only [List.map_cons, List.mem_cons] at h
      by_cases hk : (k == x) = true
      · simp [alistLookup, hk]
      · rcases h with h | h
        · exact absurd (by simp [h]) hk
        · simp [alistLookup, hk]
          exact ih h

theorem addExecuted_eq (ex : List String) (id : String) :
    addExecuted ex id = if id ∈ ex then ex else ex ++ [id] := by
  unfold addExecuted
  by_cases h : id ∈ ex <;> simp [List.contains, List.elem_iff, h]

theorem keys_alistStore {α : Type} (l : List (String × α)) (k : String) (v : α) :
    (alistStore l k v).map Prod.fst = addExecuted (l.map Prod.fst) k := by
  induction l with
  | nil => simp [alistStore, addExecuted_eq]
  | cons kv rest ih =>
      obtain ⟨k', v'⟩ := kv
      by_cases hk : k' = k
      · subst hk
        simp [alistStore, addExecuted_eq]
      · have hkb : (k' == k) = false := by simp [hk]
        simp only [alistStore, hkb, Bool.false_eq_true, if_false, List.map_cons]
        rw [ih, addExecuted_eq, addExecuted_eq]
        by_cases hm : k ∈ rest.map Prod.fst
        · simp [hm, Ne.symm hk]
        · simp [hm, Ne.symm hk]

theorem mem_addExecuted (ex : List String) (id x : String) :
    x ∈ addExecuted ex id ↔ x ∈ ex ∨ x = id := by
  rw [addExecuted_eq]
  by_cases h : id ∈ ex
  · simp only [h, if_true]
    constructor
    · exact Or.inl
    · rintro (hx | rfl)
      · exact hx
      · exact h
  · simp [h]

theorem self_mem_addExecuted (ex : List String) (id : String) : id ∈ addExecuted ex id :=
  (mem_addExecuted ex id id).mpr (Or.inr rfl)

theorem mem_addExecuted_of_mem (ex : List String) (id x : String) (h : x ∈ ex) :
    x ∈ addExecuted ex id := (mem_addExecuted ex id x).mpr (Or.inl h)

theorem length_addExecuted_ge (ex : List String) (id : String) :
    ex.length ≤ (addExecuted ex id).length := by
  rw [addExecuted_eq]; split <;> simp

theorem length_addExecuted_of_not_mem (ex : List String) (id : String) (h : id ∉ ex) :
    (addExecuted ex id).length = ex.length + 1 := by
  rw [addExecuted_eq]; simp [h]

theorem addExecuted_eq_append (ex : List String) (id : String) :
    ∃ l, addExecuted ex id = ex ++ l := by
  rw [addExecuted_eq]; split
  · exact ⟨[], by simp⟩
  · exact ⟨[id], rfl⟩

theorem nodup_addExecuted (ex : List String) (id : String) (h : ex.Nodup) :
    (addExecuted ex id).Nodup := by
  rw [addExecuted_eq]
  by_cases hc : id ∈ ex
  · simp [hc, h]
  · simp [hc, List.nodup_append, h]

/-! ### Lemmas about one batch of ready tasks -/

theorem runTask_eq_concludeTask (net : Net) (st : ExecState) (t : DAGTask) :
    ∃ rec, runTask net st t = concludeTask st t.task_id rec := by
  unfold runTask
  cases execute_task net st.task_results t <;> exact ⟨_, rfl⟩

theorem runTask_executed (net : Net) (st : ExecState) (t : DAGTask) :
    (runTask net st t).executed = addExecuted st.executed t.task_id := by
  obtain ⟨rec, hrec⟩ := runTask_eq_concludeTask net st t
  rw [hrec]; rfl

theorem runTask_keys (net : Net) (st : ExecState) (t : DAGTask) :
    (runTask net st t).task_results.map Prod.fst =
      addExecuted (st.task_results.map Prod.fst) t.task_id := by
  obtain ⟨rec, hrec⟩ := runTask_eq_concludeTask net st t
  rw [hrec]
  exact keys_alistStore st.task_results t.task_id rec

theorem runTask_journal_keys (net : Net) (st : ExecState) (t : DAGTask) :
    (runTask net st t).journal.map Prod.fst = st.journal.map Prod.fst ++ [t.task_id] := by
  obtain ⟨rec, hrec⟩ := runTask_eq_concludeTask net st t
  rw [hrec]; simp [concludeTask]

theorem runBatch_executed_prefix (net : Net) (ts : List DAGTask) :
    ∀ st : ExecState, ∃ l, (runBatch net st ts).executed = st.executed ++ l := by
  induction ts with
  | nil => exact fun st => ⟨[], by simp [runBatch]⟩
  | cons t ts ih =>
      intro st
      obtain ⟨l1, h1⟩ := ih (runTask net st t)
      obtain ⟨l0, h0⟩ := addExecuted_eq_append st.executed t.task_id
      exact ⟨l0 ++ l1, by simp [runBatch, h1, runTask_executed, h0]⟩

theorem runBatch_executed_length (net : Net) (ts : List DAGTask) (st : ExecState) :
    st.executed.length ≤ (runBatch net st ts).executed.length := by
  obtain ⟨l, h⟩ := runBatch_executed_prefix net ts st
  simp [h]

theorem runBatch_length_succ (net : Net) (t : DAGTask) (ts : List DAGTask) (st : ExecState)
    (h : t.task_id ∉ st.executed) :
    st.executed.length + 1 ≤ (runBatch net st (t :: ts)).executed.length := by
  have h1 : (runTask net st t).executed.length = st.executed.length + 1 := by
    rw [runTask_executed]
    exact length_addExecuted_of_not_mem _ _ h
  calc st.executed.length + 1 = (runTask net st t).executed.length := h1.symm
    _ ≤ (runBatch net (runTask net st t) ts).executed.length := runBatch_executed_length net ts _
    _ = (runBatch net st (t :: ts)).executed.length := rfl

theorem runBatch_executed_mem (net : Net) (ts : List DAGTask) :
    ∀ (st : ExecState) (x : String), x ∈ (runBatch net st ts).executed →
      x ∈ st.executed ∨ x ∈ ts.map (fun t => t.task_id) := by
  induction ts with
  | nil => intro st x h; exact Or.inl (by simpa [runBatch] using h)
  | cons t ts ih =>
      intro st x h
      rcases ih (runTask net st t) x h with h1 | h1
      · rw [runTask_executed] at h1
        rcases (mem_addExecuted _ _ _).mp h1 with h2 | h2
        · exact Or.inl h2
        · exact Or.inr (by simp [h2])
      · exact Or.inr (by simp; right; simpa using h1)

theorem runBatch_nodup (net : Net) (ts : List DAGTask) :
    ∀ st : ExecState, st.executed.Nodup → (runBatch net st ts).executed.Nodup := by
  induction ts with
  | nil => exact fun st h => h
  | cons t ts ih =>
      intro st h
      exact ih (runTask net st t) (by rw [runTask_executed]; exact nodup_addExecuted _ _ h)

theorem runBatch_keys_sync (net : Net) (ts : List DAGTask) :
    ∀ st : ExecState, st.task_results.map Prod.fst = st.executed →
      (runBatch net st ts).task_results.map Prod.fst = (runBatch net st ts).executed := by
  induction ts with
  | nil => exact fun st h => h
  | cons t ts ih =>
      intro st h
      exact ih (runTask net st t) (by rw [runTask_keys, runTask_executed, h])

theorem runBatch_executed_subset_keys (net : Net) (ts : List DAGTask) :
    ∀ st : ExecState, (∀ x ∈ st.executed, x ∈ st.task_results.map Prod.fst) →
      ∀ x ∈ (runBatch net st ts).executed, x ∈ (runBatch net st ts).task_results.map Prod.fst := by
  induction ts with
  | nil => exact fun st h => h
  | cons t ts ih =>
      intro st h
      refine ih (runTask net st t) ?_
      intro x hx
      rw [runTask_executed] at hx
      rw [runTask_keys]
      rcases (mem_addExecuted _ _ _).mp hx with h1 | h1
      · exact mem_addExecuted_of_mem _ _ _ (h x h1)
      · rw [h1]; exact self_mem_addExecuted _ _

theorem runBatch_journal_sync (net : Net) (ts : List DAGTask) :
    ∀ st : ExecState, st.journal.map Prod.fst = st.executed →
      (ts.map (fun t => t.task_id)).Nodup →
      (∀ t ∈ ts, t.task_id ∉ st.executed) →
      (runBatch net st ts).journal.map Prod.fst = (runBatch net st ts).executed := by
  induction ts with
  | nil => exact fun st h _ _ => h
  | cons t ts ih =>
      intro st h hnd hnm
      have hmem : t.task_id ∉ st.executed := hnm t (by simp)
      have hnd' : (∀ x ∈ ts, ¬x.task_id = t.task_id) ∧
          (ts.map (fun u => u.task_id)).Nodup := by simpa using hnd
      refine ih (runTask net st t) ?_ ?_ ?_
      · rw [runTask_journal_keys, runTask_executed, h, addExecuted_eq]
        simp [hmem]
      · exact hnd'.2
      · intro u hu
        rw [runTask_executed, addExecuted_eq]
        simp [hmem]
        exact ⟨hnm u (by simp [hu]), hnd'.1 u hu⟩

/-! ### Lemmas about the scheduling loop -/

theorem readyTasks_not_executed (dag : List DAGTask) (executed : List String) (t : DAGTask)
    (h : t ∈ readyTasks dag executed) : t ∈ dag ∧ t.task_id ∉ executed := by
  have := List.mem_filter.mp h
  refine ⟨this.1, ?_⟩
  have hb := this.2
  intro hm
  simp [List.contains, List.elem_iff, hm] at hb

theorem readyTasks_ids_nodup (dag : List DAGTask) (executed : List String)
    (h : (dag.map (fun t => t.task_id)).Nodup) :
    ((readyTasks dag executed).map (fun t => t.task_id)).Nodup := by
  exact List.Nodup.sublist ((List.filter_sublist dag).map (fun t => t.task_id)) h

theorem execLoop_state_inv (net : Net) (dag : List DAGTask) (P : ExecState → Prop)
    (hP : ∀ st, P st → P (runBatch net st (readyTasks dag st.executed))) :
    ∀ (fuel : Nat) (st : ExecState), P st → P (execLoop net dag fuel st).2 := by
  intro fuel
  induction fuel with
  | zero =>
      intro st h
      unfold execLoop
      split <;> exact h
  | succ n ih =>
      intro st h
      unfold execLoop
      split
      · exact h
      · split
        · exact h
        · exact ih _ (hP st h)

theorem execLoop_report_iff (net : Net) (dag : List DAGTask) :
    ∀ (fuel : Nat) (st : ExecState) (rep : ExecReport) (st' : ExecState),
      execLoop net dag fuel st = (ExecOutcome.report rep, st') →
      dag.length ≤ st'.executed.length ∧ rep = mkReport dag st'.task_results := by
  intro fuel
  induction fuel with
  | zero =>
      intro st rep st' h
      unfold execLoop at h
      split at h
      · have h1 := congrArg Prod.fst h
        have h2 := congrArg Prod.snd h
        simp only [ExecOutcome.report.injEq] at h1 h2
        subst h2
        exact ⟨by assumption, h1.symm⟩
      · cases h
  | succ n ih =>
      intro st rep st' h
      unfold execLoop at h
      split at h
      · have h1 := congrArg Prod.fst h
        have h2 := congrArg Prod.snd h
        simp only [ExecOutcome.report.injEq] at h1 h2
        subst h2
        exact ⟨by assumption, h1.symm⟩
      · split at h
        · cases h
        · exact ih _ rep st' h

theorem execLoop_no_fuel_exhaustion (net : Net) (dag : List DAGTask) :
    ∀ (fuel : Nat) (st : ExecState), dag.length ≤ fuel + st.executed.length →
      (execLoop net dag fuel st).1 ≠ ExecOutcome.outOfFuel := by
  intro fuel
  induction fuel with
  | zero =>
      intro st h
      unfold execLoop
      have : dag.length ≤ st.executed.length := by omega
      simp [this]
  | succ n ih =>
      intro st h
      unfold execLoop
      split
      · simp
      · split
        · simp
        · rename_i hlen hne
          refine ih _ ?_
          rcases hr : readyTasks dag st.executed with _ | ⟨t, ts⟩
          · rw [hr] at hne; simp at hne
          · have ht : t ∈ readyTasks dag st.executed := by rw [hr]; simp
            have hnm := (readyTasks_not_executed dag st.executed t ht).2
            have := runBatch_length_succ net t ts st hnm
            omega

/-! ### Counting helpers for duplicate-free string lists -/

theorem nodup_subset_length_le (ex ids : List String) (hnd : ex.Nodup)
    (hsub : ∀ x ∈ ex, x ∈ ids) : ex.length ≤ ids.length := by
  have h1 : ex.toFinset ⊆ ids.toFinset := by
    intro a ha
    exact List.mem_toFinset.mpr (hsub a (List.mem_toFinset.mp ha))
  have h2 : ex.toFinset.card = ex.length := by
    rw [List.card_toFinset, hnd.dedup]
  have h3 : ids.toFinset.card ≤ ids.length := ids.toFinset_card_le
  have h4 := Finset.card_le_card h1
  omega

theorem nodup_covers (ex ids : List String) (hnd : ex.Nodup)
    (hsub : ∀ x ∈ ex, x ∈ ids) (hlen : ids.length ≤ ex.length) :
    ∀ y ∈ ids, y ∈ ex := by
  have h1 : ex.toFinset ⊆ ids.toFinset := by
    intro a ha
    exact List.mem_toFinset.mpr (hsub a (List.mem_toFinset.mp ha))
  have h2 : ex.toFinset.card = ex.length := by
    rw [List.card_toFinset, hnd.dedup]
  have h3 : ids.toFinset.card ≤ ids.length := ids.toFinset_card_le
  have h4 : ids.toFinset.card ≤ ex.toFinset.card := by omega
  have heq : ex.toFinset = ids.toFinset := Finset.eq_of_subset_of_card_le h1 h4
  intro y hy
  exact List.mem_toFinset.mp (heq ▸ List.mem_toFinset.mpr hy)

/-! ### Facts holding whenever `execute_dag` returns a report -/

theorem execute_dag_from_report_facts (net : Net) (init : List (String × Val))
    (po : PlannerOutput) (rep : ExecReport) (st' : ExecState)
    (h : execute_dag_from net init po = (ExecOutcome.report rep, st')) :
    rep = mkReport po.dag st'.task_results ∧
    st'.executed.Nodup ∧
    (∀ x ∈ st'.executed, x ∈ po.dag.map (fun t => t.task_id)) ∧
    (∀ x ∈ st'.executed, x ∈ st'.task_results.map Prod.fst) ∧
    (∀ t ∈ po.dag, t.task_id ∈ st'.executed) := by
  obtain ⟨hlen, hrep⟩ := execLoop_report_iff net po.dag po.dag.length _ rep st' h
  have hinv := execLoop_state_inv net po.dag
    (fun st => st.executed.Nodup ∧
      (∀ x ∈ st.executed, x ∈ po.dag.map (fun t => t.task_id)) ∧
      (∀ x ∈ st.executed, x ∈ st.task_results.map Prod.fst))
    (by
      intro st hst
      refine ⟨runBatch_nodup net _ st hst.1, ?_, runBatch_executed_subset_keys net _ st hst.2.2⟩
      intro x hx
      rcases runBatch_executed_mem net _ st x hx with h1 | h1
      · exact hst.2.1 x h1
      · obtain ⟨t, ht, hid⟩ := List.mem_map.mp h1
        exact List.mem_map.mpr ⟨t, (readyTasks_not_executed po.dag st.executed t ht).1, hid⟩)
    po.dag.length { executed := [], task_results := init, journal := [] }
    ⟨by simp, by simp, by simp⟩
  have hst' : (execLoop net po.dag po.dag.length
      { executed := [], task_results := init, journal := [] }).2 = st' := congrArg Prod.snd h
  rw [hst'] at hinv
  refine ⟨hrep, hinv.1, hinv.2.1, hinv.2.2, ?_⟩
  intro t ht
  refine nodup_covers st'.executed (po.dag.map (fun t => t.task_id)) hinv.1 hinv.2.1
    (by simpa using hlen) t.task_id (List.mem_map.mpr ⟨t, ht, rfl⟩)

theorem execute_dag_from_empty_keys (net : Net) (po : PlannerOutput) :
    (execute_dag_from net [] po).2.task_results.map Prod.fst =
      (execute_dag_from net [] po).2.executed := by
  exact execLoop_state_inv net po.dag
    (fun st => st.task_results.map Prod.fst = st.executed)
    (fun st hst => runBatch_keys_sync net _ st hst)
    po.dag.length { executed := [], task_results := [], journal := [] } (by simp)

theorem execute_dag_from_journal_keys (net : Net) (init : List (String × Val))
    (po : PlannerOutput) (hnd : (po.dag.map (fun t => t.task_id)).Nodup) :
    (execute_dag_from net init po).2.journal.map Prod.fst =
      (execute_dag_from net init po).2.executed := by
  exact execLoop_state_inv net po.dag
    (fun st => st.journal.map Prod.fst = st.executed)
    (fun st hst =>
      runBatch_journal_sync net _ st hst (readyTasks_ids_nodup po.dag st.executed hnd)
        (fun t ht => (readyTasks_not_executed po.dag st.executed t ht).2))
    po.dag.length { executed := [], task_results := init, journal := [] } (by simp)

/-! ### Dependency graph well-formedness -/

/-- Dependency edge of a plan: task `a` declares `b` in its `depends_on`. -/
def edgeIn (tasks : List DAGTask) (a b : String) : Prop :=
  ∃ t ∈ tasks, t.task_id = a ∧ b ∈ t.depends_on

/-- Nonempty path along dependency edges. -/
inductive depPath (tasks : List DAGTask) : String → String → Prop where
  | base {a b : String} : edgeIn tasks a b → depPath tasks a b
  | step {a b c : String} : edgeIn tasks a b → depPath tasks b c → depPath tasks a c

/-- Skeleton of a plan: ids and dependency lists only. -/
def skel (tasks : List DAGTask) : List (String × List String) :=
  tasks.map fun t => (t.task_id, t.depends_on)

/-- Check that every entry depends only on earlier-listed (or pre-seen)
ids: the plan is listed in a topological order. -/
def topoOk : List String → List (String × List String) → Bool
  | _, [] => true
  | seen, (id, deps) :: rest =>
      deps.all (fun d => seen.contains d) && topoOk (seen ++ [id]) rest

theorem topoOk_closed (sk : List (String × List String)) :
    ∀ seen : List String, topoOk seen sk = true →
      ∀ p ∈ sk, ∀ d ∈ p.2, d ∈ seen ∨ d ∈ sk.map Prod.fst := by
  induction sk with
  | nil => intro seen _ p hp; simp at hp
  | cons q rest ih =>
      obtain ⟨id, deps⟩ := q
      intro seen htopo p hp d hd
      have h1 : deps.all (fun d => seen.contains d) = true ∧ topoOk (seen ++ [id]) rest = true := by
        simpa [topoOk, Bool.and_eq_true] using htopo
      rcases List.mem_cons.mp hp with rfl | hp'
      · have := List.all_eq_true.mp h1.1 d hd
        exact Or.inl (by simpa [List.contains, List.elem_iff] using this)
      · rcases ih (seen ++ [id]) h1.2 p hp' d hd with h2 | h2
        · rcases List.mem_append.mp h2 with h3 | h3
          · exact Or.inl h3
          · exact Or.inr (by simp at h3; simp [h3])
        · exact Or.inr (by simp [h2])

theorem topoOk_edge_lt (sk : List (String × List String)) :
    ∀ seen : List String, topoOk seen sk = true →
      (seen ++ sk.map Prod.fst).Nodup →
      ∀ a b : String, (∃ p ∈ sk, p.1 = a ∧ b ∈ p.2) →
        (seen ++ sk.map Prod.fst).indexOf b < (seen ++ sk.map Prod.fst).indexOf a := by
  induction sk with
  | nil => intro seen _ _ a b hp; simp at hp
  | cons q rest ih =>
      obtain ⟨id, deps⟩ := q
      intro seen htopo hnd a b hp
      have h1 : deps.all (fun d => seen.contains d) = true ∧ topoOk (seen ++ [id]) rest = true := by
        simpa [topoOk, Bool.and_eq_true] using htopo
      obtain ⟨p, hpmem, hpa, hpb⟩ := hp
      have hassoc : seen ++ (List.map Prod.fst ((id, deps) :: rest)) =
          (seen ++ [id]) ++ rest.map Prod.fst := by simp
      rcases List.mem_cons.mp hpmem with rfl | hp'
      · -- the edge comes from the head entry: its target was already seen
        have hbseen : b ∈ seen := by
          have := List.all_eq_true.mp h1.1 b hpb
          simpa [List.contains, List.elem_iff] using this
        have hidnotseen : id ∉ seen := by
          rw [hassoc] at hnd
          have := (List.nodup_append.mp hnd).1
          have h2 := (List.nodup_append.mp this).2.2
          intro hm
          exact h2 hm (by simp)
        have hb : (seen ++ List.map Prod.fst ((id, deps) :: rest)).indexOf b = seen.indexOf b :=
          List.indexOf_append_of_mem hbseen
        have ha : (seen ++ List.map Prod.fst ((id, deps) :: rest)).indexOf a =
            seen.length + (List.map Prod.fst ((id, deps) :: rest)).indexOf a := by
          refine List.indexOf_append_of_not_mem ?_
          rw [← hpa]; exact hidnotseen
        rw [hb, ha, ← hpa]
        have : (List.map Prod.fst ((id, deps) :: rest)).indexOf id = 0 := by
          simp [List.indexOf_cons_self]
        rw [this]
        have := List.indexOf_lt_length.mpr hbseen
        omega
      · -- the edge comes from the tail: induct with the head id marked seen
        have := ih (seen ++ [id]) h1.2 (by rw [← hassoc]; exact hnd) a b ⟨p, hp', hpa, hpb⟩
        rw [hassoc]
        simpa using this

theorem depPath_lt (tasks : List DAGTask) (f : String → Nat)
    (hf : ∀ a b, edgeIn tasks a b → f b < f a) :
    ∀ a b, depPath tasks a b → f b < f a := by
  intro a b hpath
  induction hpath with
  | base h => exact hf _ _ h
  | step h _ ih => exact lt_trans ih (hf _ _ h)

/-- Well-formedness asserted by the spec for every plan: nonempty, unique
ids, dependencies reference ids of the same plan, and no dependency
cycle. -/
def plan_wellformed (tasks : List DAGTask) : Prop :=
  tasks ≠ [] ∧
  (tasks.map (fun t => t.task_id)).Nodup ∧
  (∀ t ∈ tasks, ∀ d ∈ t.depends_on, d ∈ tasks.map (fun t => t.task_id)) ∧
  (∀ a, ¬ depPath tasks a a)

theorem plan_wellformed_of_skel (tasks : List DAGTask)
    (hne : 0 < tasks.length)
    (hnd : (tasks.map fun t => t.task_id).Nodup)
    (htopo : topoOk [] (skel tasks) = true) : plan_wellformed tasks := by
  have hkeys : (skel tasks).map Prod.fst = tasks.map (fun t => t.task_id) := by
    simp [skel]
  refine ⟨by simpa using List.length_pos.mp hne, hnd, ?_, ?_⟩
  · intro t ht d hd
    have := topoOk_closed (skel tasks) [] htopo (t.task_id, t.depends_on)
      (List.mem_map.mpr ⟨t, ht, rfl⟩) d hd
    rcases this with h | h
    · simp at h
    · rwa [hkeys] at h
  · have hedge : ∀ a b, edgeIn tasks a b →
        (tasks.map (fun t => t.task_id)).indexOf b < (tasks.map (fun t => t.task_id)).indexOf a := by
      rintro a b ⟨t, ht, hid, hdep⟩
      have := topoOk_edge_lt (skel tasks) [] htopo
        (by simpa [hkeys] using hnd) a b
        ⟨(t.task_id, t.depends_on), List.mem_map.mpr ⟨t, ht, rfl⟩, hid, hdep⟩
      simpa [hkeys] using this
    intro a hpath
    exact absurd (depPath_lt tasks (fun x => (tasks.map (fun t => t.task_id)).indexOf x) hedge a a hpath)
      (lt_irrefl _)

theorem skel_check_of_eq (tasks : List DAGTask) (L : List (String × List String))
    (h : skel tasks = L) (h1 : 0 < L.length) (h2 : (L.map Prod.fst).Nodup)
    (h3 : topoOk [] L = true) :
    0 < tasks.length ∧ (tasks.map fun t => t.task_id).Nodup ∧
      topoOk [] (skel tasks) = true := by
  have hlen : tasks.length = L.length := by rw [← h]; simp [skel]
  have hmap : tasks.map (fun t => t.task_id) = L.map Prod.fst := by rw [← h]; simp [skel]
  exact ⟨hlen ▸ h1, hmap ▸ h2, h ▸ h3⟩

theorem build_plan_skel_check (es : Bool) (r i : String) (s : List (String × Val)) :
    0 < (build_plan es r i s).dag.length ∧
    ((build_plan es r i s).dag.map fun t => t.task_id).Nodup ∧
    topoOk [] (skel (build_plan es r i s).dag) = true := by
  by_cases hf : i = "find_listings"
  · subst hf
    cases es
    · exact skel_check_of_eq _
        [("t1_search", []), ("t2_legal", ["t1_search"]), ("t3_valuation", ["t1_search"]),
          ("t4_verification", ["t1_search"])]
        rfl (by decide) (by decide) (by decide)
    · exact skel_check_of_eq _
        [("t1_search", []), ("t2_legal", ["t1_search"]), ("t3_valuation", ["t1_search"]),
          ("t4_verification", ["t1_search"]),
          ("t_final_summary", ["t1_search", "t2_legal", "t3_valuation", "t4_verification"])]
        rfl (by decide) (by decide) (by decide)
  by_cases hl : i = "legal_verification"
  · subst hl
    cases es
    · exact skel_check_of_eq _
        [("t1_search", []), ("t2_legal", ["t1_search"]), ("t3_verification", ["t1_search"])]
        rfl (by decide) (by decide) (by decide)
    · exact skel_check_of_eq _
        [("t1_search", []), ("t2_legal", ["t1_search"]), ("t3_verification", ["t1_search"]),
          ("t_final_summary", ["t1_search", "t2_legal", "t3_verification"])]
        rfl (by decide) (by decide) (by decide)
  by_cases hc : i = "compare_locations"
  · subst hc
    cases es
    · exact skel_check_of_eq _
        [("t1_search", []), ("t2_valuation", ["t1_search"]), ("t4_verification", ["t1_search"])]
        rfl (by decide) (by decide) (by decide)
    · exact skel_check_of_eq _
        [("t1_search", []), ("t2_valuation", ["t1_search"]), ("t4_verification", ["t1_search"]),
          ("t_final_summary", ["t1_search", "t2_valuation", "t4_verification"])]
        rfl (by decide) (by decide) (by decide)
  by_cases hp : i = "price_forecast"
  · subst hp
    cases es
    · exact skel_check_of_eq _ [("t1_valuation", [])] rfl (by decide) (by decide) (by decide)
    · exact skel_check_of_eq _
        [("t1_valuation", []), ("t_final_summary", ["t1_valuation"])]
        rfl (by decide) (by decide) (by decide)
  have e1 : include_search i = false := by simp [include_search, hf, hl, hc]
  have e2 : include_legal i = false := by simp [include_legal, hf, hl]
  have e3 : include_valuation i = false := by simp [include_valuation, hf, hp, hc]
  have e4 : include_verification i = false := by simp [include_verification, hf, hl, hc]
  refine skel_check_of_eq _ [("t1_generic", [])] ?_ (by decide) (by decide) (by decide)
  simp [build_plan, e1, e2, e3, e4, skel]

/-- Results table of the spec's placeholder-resolution example. -/
def sampleResults : List (String × Val) :=
  [("t1_search", Val.dict [("candidates", Val.dict [("ids", Val.list [Val.str "l1", Val.str "l2"])])])]

/-- Test whether a value is a Python string. -/
def valIsStr : Val → Bool
  | Val.str _ => true
  | _ => false

/-! ### Claim theorems -/

/-- C1: a task whose dependencies have all concluded is attempted even
when a dependency failed.  First conjunct: whenever `execute_dag` returns
a report (from any initial results table), every task of the plan has an
entry in the report's results table — failed dependencies never block or
cancel dependents, since readiness only consults the `executed_tasks` set,
which failed tasks join too.  Second conjunct: in the concrete plan `A ←
B` where `A`'s attempt fails (no endpoint for its task type) and the
error record `recA` is stored for it, `B` is still executed (its
placeholder over `A`'s result resolving to the literal placeholder
string) and both tasks are concluded in the returned report. -/
theorem failed_dependency_does_not_block :
    (∀ (net : Net) (init : List (String × Val)) (po : PlannerOutput) (rep : ExecReport)
        (st' : ExecState), execute_dag_from net init po = (ExecOutcome.report rep, st') →
        ∀ t ∈ po.dag, (alistLookup rep.task_results t.task_id).isSome = true) ∧
    execute_dag netEcho planAB =
      ExecOutcome.report
        { status := "completed", task_results := [("A", recA), ("B", recB)],
          total_tasks := 2, successful_tasks := 1, failed_tasks := 1 } := by
  constructor
  · intro net init po rep st' h t ht
    obtain ⟨hrep, _hnd, _hsub, hkeys, hcov⟩ := execute_dag_from_report_facts net init po rep st' h
    have hmem : t.task_id ∈ st'.task_results.map Prod.fst := hkeys _ (hcov t ht)
    rw [hrep]
    exact alistLookup_isSome_of_mem _ _ hmem
  · rfl

/-- C1 witness: the general completeness conjunct applied to the concrete
failed-`A` scenario shows `B` concluded. -/
theorem failed_dependency_does_not_block_witness :
    (alistLookup [("A", recA), ("B", recB)] "B").isSome = true :=
  failed_dependency_does_not_block.1 netEcho [] planAB
    { status := "completed", task_results := [("A", recA), ("B", recB)],
      total_tasks := 2, successful_tasks := 1, failed_tasks := 1 }
    (execute_dag_from netEcho [] planAB).2 rfl taskB
    (List.mem_cons_of_mem _ (List.mem_cons_self _ _))

/-- C2: `execute_dag` terminates on every finite plan.  First conjunct:
with `dag.length` units of fuel (one per loop pass — each pass either
concludes at least one new task or exits) the loop never runs out of fuel,
i.e. the unbounded Python `while` terminates, returning a report or
raising.  Second conjunct: the concrete two-task cycle `C ⇄ D` makes the
ready scan empty on the first pass, so `execute_dag` raises the distinct
`RuntimeError` (modelled `ExecOutcome.circular`) instead of looping or
returning a partial report. -/
theorem execution_terminates_or_aborts :
    (∀ (net : Net) (init : List (String × Val)) (po : PlannerOutput),
        (execute_dag_from net init po).1 ≠ ExecOutcome.outOfFuel) ∧
    (∀ net : Net, execute_dag net cyclePlan = ExecOutcome.circular) := by
  constructor
  · intro net init po
    exact execLoop_no_fuel_exhaustion net po.dag po.dag.length _ (by simp)
  · intro net
    rfl

/-- C2 witness: the cycle conjunct instantiated at a concrete oracle. -/
theorem execution_terminates_or_aborts_witness :
    execute_dag netNull cyclePlan = ExecOutcome.circular :=
  execution_terminates_or_aborts.2 netNull

/-- C3 counterexample: the claim says a failing path step on a non-mapping
intermediate value returns the original placeholder string; in the code a
non-mapping intermediate goes through `getattr(result, part, None)`, which
yields `None` — carried to the end and returned.  For the results table
`t1 ↦ \x7ba: 5\x7d` and placeholder `(braces)t1.a.b(braces)`, resolution
returns `None`, which is not a string at all, hence not the placeholder
string. -/
theorem resolve_placeholder_nonmapping_cex :
    resolvePlaceholder [("t1", Val.dict [("a", Val.int 5)])] "\x7b\x7bt1.a.b\x7d\x7d" = Val.null ∧
    valIsStr (resolvePlaceholder [("t1", Val.dict [("a", Val.int 5)])] "\x7b\x7bt1.a.b\x7d\x7d") = false :=
  ⟨rfl, rfl⟩

/-- C3 amended: `_resolve_placeholder` never raises (it is embedded as a
total function: the walk's only failure, `KeyError`, is caught).  It
returns the original placeholder string when the referenced task id has
no results-table entry, and when a mapping step of the path misses its
key (`KeyError` caught per field); but a path step on a non-mapping
intermediate yields `None` via the `getattr` default, which propagates
and is returned instead of the placeholder. -/
theorem resolve_placeholder_amended :
    (∀ (results : List (String × Val)) (ph : String),
        alistLookup results ((placeholderParts ph).headD "") = Option.none →
        resolvePlaceholder results ph = Val.str ph) ∧
    (∀ (results : List (String × Val)) (ph : String) (r : Val),
        alistLookup results ((placeholderParts ph).headD "") = some r →
        walkPath r (placeholderParts ph).tail = Except.error () →
        resolvePlaceholder results ph = Val.str ph) ∧
    resolvePlaceholder sampleResults "\x7b\x7bt1_search.candidates.missing\x7d\x7d" =
      Val.str "\x7b\x7bt1_search.candidates.missing\x7d\x7d" ∧
    resolvePlaceholder [("t1", Val.dict [("a", Val.int 5)])] "\x7b\x7bt1.a.b\x7d\x7d" = Val.null := by
  refine ⟨?_, ?_, rfl, rfl⟩
  · intro results ph h
    have hdef : resolvePlaceholder results ph =
        match alistLookup results ((placeholderParts ph).headD "") with
        | Option.none => Val.str ph
        | some result =>
          match walkPath result (placeholderParts ph).tail with
          | Except.ok v => v
          | Except.error _ => Val.str ph := rfl
    rw [hdef, h]
  · intro results ph r h1 h2
    have hdef : resolvePlaceholder results ph =
        match alistLookup results ((placeholderParts ph).headD "") with
        | Option.none => Val.str ph
        | some result =>
          match walkPath result (placeholderParts ph).tail with
          | Except.ok v => v
          | Except.error _ => Val.str ph := rfl
    rw [hdef, h1]
    show (match walkPath r (placeholderParts ph).tail with
          | Except.ok v => v
          | Except.error _ => Val.str ph) = Val.str ph
    rw [h2]

/-- C3 witness: the missing-task-id conjunct at a concrete input. -/
theorem resolve_placeholder_amended_witness :
    resolvePlaceholder [] "\x7b\x7bmissing.x\x7d\x7d" = Val.str "\x7b\x7bmissing.x\x7d\x7d" :=
  resolve_placeholder_amended.1 [] "\x7b\x7bmissing.x\x7d\x7d" rfl

/-- C4: `_resolve_payload_template` maps each entry independently (it
distributes over concatenation of templates); a string value containing
both markers is replaced by its placeholder resolution (strip braces,
split on dots, walk the referenced task's stored result); any non-string
value, and any string missing a marker, passes through unchanged — no
recursive scanning.  Final conjunct: the spec's concrete example
template resolves to the ids list. -/
theorem payload_template_mapping :
    (∀ (results t1 t2 : List (String × Val)),
        resolvePayloadTemplate results (t1 ++ t2) =
          resolvePayloadTemplate results t1 ++ resolvePayloadTemplate results t2) ∧
    (∀ (results : List (String × Val)) (k s : String),
        (pyContains s "\x7b\x7b" && pyContains s "\x7d\x7d") = true →
        resolvePayloadTemplate results [(k, Val.str s)] = [(k, resolvePlaceholder results s)]) ∧
    (∀ (results : List (String × Val)) (k : String) (v : Val),
        valIsStr v = false → resolvePayloadTemplate results [(k, v)] = [(k, v)]) ∧
    (∀ (results : List (String × Val)) (k s : String),
        (pyContains s "\x7b\x7b" && pyContains s "\x7d\x7d") = false →
        resolvePayloadTemplate results [(k, Val.str s)] = [(k, Val.str s)]) ∧
    resolvePayloadTemplate sampleResults
        [("listing_ids", Val.str "\x7b\x7bt1_search.candidates.ids\x7d\x7d")] =
      [("listing_ids", Val.list [Val.str "l1", Val.str "l2"])] := by
  refine ⟨?_, ?_, ?_, ?_, rfl⟩
  · intro results t1 t2
    simp [resolvePayloadTemplate]
  · intro results k s h
    obtain ⟨h1, h2⟩ := Bool.and_eq_true_iff.mp h
    simp [resolvePayloadTemplate, h1, h2]
  · intro results k v h
    cases v <;> simp_all [resolvePayloadTemplate, valIsStr]
  · intro results k s h
    have hcond : ¬((pyContains s "\x7b\x7b" && pyContains s "\x7d\x7d") = true) := by
      simp [h]
    simp [resolvePayloadTemplate, hcond]
    intro ha hb
    rw [ha, hb] at h
    simp at h

/-- C4 witness: the whole-value placeholder conjunct at the spec's
example input. -/
theorem payload_template_mapping_witness :
    resolvePayloadTemplate sampleResults
        [("listing_ids", Val.str "\x7b\x7bt1_search.candidates.ids\x7d\x7d")] =
      [("listing_ids", resolvePlaceholder sampleResults "\x7b\x7bt1_search.candidates.ids\x7d\x7d")] :=
  payload_template_mapping.2.1 sampleResults "listing_ids"
    "\x7b\x7bt1_search.candidates.ids\x7d\x7d" rfl

/-- C5: whenever a fresh-state run of `execute_dag` returns normally, the
report's status is exactly `"completed"` (even with individual task
failures), `total_tasks` is the plan size, `successful_tasks` counts the
stored results without an `error` key, `failed_tasks` those with one, and
the two counts sum to `total_tasks`.  Final conjunct: the concrete
4-task plan with exactly one erroring agent call reports `(3, 1, 4)`. -/
theorem report_counts :
    (∀ (net : Net) (po : PlannerOutput) (rep : ExecReport) (st' : ExecState),
        execute_dag_from net [] po = (ExecOutcome.report rep, st') →
        rep.status = "completed" ∧
        rep.total_tasks = po.dag.length ∧
        rep.successful_tasks = (rep.task_results.filter (fun kv => !(hasErrorKey kv.2))).length ∧
        rep.failed_tasks = (rep.task_results.filter (fun kv => hasErrorKey kv.2)).length ∧
        rep.successful_tasks + rep.failed_tasks = rep.total_tasks) ∧
    execute_dag net4 plan4 =
      ExecOutcome.report
        { status := "completed",
          task_results := [("T1", recOkNull), ("T2", recErrBoom), ("T3", recOkNull), ("T4", recOkNull)],
          total_tasks := 4, successful_tasks := 3, failed_tasks := 1 } := by
  constructor
  · intro net po rep st' h
    obtain ⟨hrep, hnd, hsub, _hkeys, _hcov⟩ := execute_dag_from_report_facts net [] po rep st' h
    have hge : po.dag.length ≤ st'.executed.length :=
      (execLoop_report_iff net po.dag po.dag.length _ rep st' h).1
    have hkeq : st'.task_results.map Prod.fst = st'.executed := by
      have hk := execute_dag_from_empty_keys net po
      rw [congrArg Prod.snd h] at hk
      exact hk
    have hle : st'.executed.length ≤ po.dag.length := by
      have := nodup_subset_length_le st'.executed (po.dag.map (fun t => t.task_id)) hnd hsub
      simpa using this
    have hreslen : st'.task_results.length = po.dag.length := by
      have h1 : (st'.task_results.map Prod.fst).length = st'.executed.length := by rw [hkeq]
      simp at h1
      omega
    have hsum : st'.task_results.length =
        (st'.task_results.filter (fun kv => hasErrorKey kv.2)).length +
        (st'.task_results.filter (fun kv => !(hasErrorKey kv.2))).length :=
      List.length_eq_length_filter_add _
    subst hrep
    refine ⟨rfl, rfl, rfl, rfl, ?_⟩
    show (st'.task_results.filter (fun kv => !(hasErrorKey kv.2))).length +
        (st'.task_results.filter (fun kv => hasErrorKey kv.2)).length = po.dag.length
    omega
  · rfl

/-- C5 witness: the general conjunct applied to the concrete 4-task run
(whose counts the second conjunct exhibits). -/
theorem report_counts_witness :
    (3 : Nat) + 1 = 4 := by
  have h := report_counts.1 net4 plan4
    { status := "completed",
      task_results := [("T1", recOkNull), ("T2", recErrBoom), ("T3", recOkNull), ("T4", recOkNull)],
      total_tasks := 4, successful_tasks := 3, failed_tasks := 1 }
    (execute_dag_from net4 [] plan4).2 rfl
  exact h.2.2.2.2

/-- C6: `build_plan` returns normally on every input (it is embedded as a
total function over JSON-valued slots — the source has no raise and no
fallible operation on them), and an intent belonging to no inclusion set
degrades to the single fallback `generic_handler` task `t1_generic` with
no dependencies rather than erroring. -/
theorem build_plan_total_fallback :
    ∀ (es : Bool) (r i : String) (s : List (String × Val)),
      include_search i = false → include_legal i = false →
      include_valuation i = false → include_verification i = false →
      (build_plan es r i s).dag.map (fun t => (t.task_id, t.task_type, t.depends_on)) =
        [("t1_generic", "generic_handler", [])] := by
  intro es r i s e1 e2 e3 e4
  simp [build_plan, e1, e2, e3, e4]

/-- C6 witness: the fallback shape at the concrete unrecognized intent
`"unknown"`. -/
theorem build_plan_total_fallback_witness :
    (build_plan true "req-1" "unknown" []).dag.map (fun t => (t.task_id, t.task_type, t.depends_on)) =
      [("t1_generic", "generic_handler", [])] :=
  build_plan_total_fallback true "req-1" "unknown" [] rfl rfl rfl rfl

/-- C7: for every input, the planner's output is a well-formed nonempty
DAG: at least one task, pairwise-distinct task ids, every `depends_on`
entry is the id of a task of the same plan, and the dependency edges
admit no cycle. -/
theorem build_plan_wellformed (es : Bool) (r i : String) (s : List (String × Val)) :
    plan_wellformed (build_plan es r i s).dag := by
  obtain ⟨h1, h2, h3⟩ := build_plan_skel_check es r i s
  exact plan_wellformed_of_skel _ h1 h2 h3

/-- C7 witness: well-formedness at a concrete input. -/
theorem build_plan_wellformed_witness :
    plan_wellformed (build_plan true "req-1" "find_listings" []).dag :=
  build_plan_wellformed true "req-1" "find_listings" []

/-- C8 counterexample: the claim says an unrecognized intent with
`enable_summary` set yields `t1_generic` plus an appended summarization
task; in the code the summarization block runs before the fallback is
appended, while the task list is still empty, so no summarization task
exists: the plan for intent `"unknown"` is exactly the one
`generic_handler` task. -/
theorem unknown_intent_no_summary_cex :
    ((build_plan true "r" "unknown" []).dag.map (fun t => t.task_type)) = ["generic_handler"] ∧
    ((build_plan true "r" "unknown" []).dag.any (fun t => t.task_type == "summarization")) = false :=
  ⟨rfl, rfl⟩

/-- C8 amended: for an intent in no inclusion set with `enable_summary`
set, the plan is exactly the one fallback `generic_handler` task
`t1_generic` with no dependencies and contains no summarization task —
the summarization check precedes the fallback and sees an empty list. -/
theorem unknown_intent_plan_amended (r : String) (s : List (String × Val)) :
    (build_plan true r "unknown" s).dag.map (fun t => (t.task_id, t.task_type, t.depends_on)) =
      [("t1_generic", "generic_handler", [])] ∧
    ((build_plan true r "unknown" s).dag.any (fun t => t.task_type == "summarization")) = false :=
  ⟨rfl, rfl⟩

/-- C9 counterexample: for intent `"compare_locations"` the verification
task is the second chained task after search, so the claim numbers it 3;
the code numbers it by which task types are present — valuation is
included, so the id is `t4_verification` and no task is numbered 3. -/
theorem compare_locations_ids_cex :
    ((build_plan true "r" "compare_locations" []).dag.map (fun t => t.task_id)) =
      ["t1_search", "t2_valuation", "t4_verification", "t_final_summary"] ∧
    (((build_plan true "r" "compare_locations" []).dag.map (fun t => t.task_id)).contains
        "t3_verification") = false :=
  ⟨rfl, rfl⟩

/-- C9 amended: the first chained task after search is numbered 2, but
subsequent numbering skips by stage type presence rather than ordinal
position: valuation is `t3_` exactly when legal is present, and
verification is `t4_` whenever valuation is present (even if legal is
not), `t3_` when legal but not valuation is present, `t2_` otherwise.
For `compare_locations` (no legal) the verification task — the second
chained task — is therefore `t4_verification`. -/
theorem chained_task_ids_amended (r : String) (s : List (String × Val)) :
    ((build_plan true r "find_listings" s).dag.map (fun t => t.task_id)) =
      ["t1_search", "t2_legal", "t3_valuation", "t4_verification", "t_final_summary"] ∧
    ((build_plan true r "legal_verification" s).dag.map (fun t => t.task_id)) =
      ["t1_search", "t2_legal", "t3_verification", "t_final_summary"] ∧
    ((build_plan true r "compare_locations" s).dag.map (fun t => t.task_id)) =
      ["t1_search", "t2_valuation", "t4_verification", "t_final_summary"] :=
  ⟨rfl, rfl, rfl⟩

/-- C10 counterexample: `task_results` is instance state that
`execute_dag` never clears, so a second run on the same executor does not
start from an empty table.  Running the one-task plan `X` and then the
one-task plan `Y` on the same instance yields a second report whose
results table still holds `X`'s record and whose counts include it:
`successful_tasks = 2` against `total_tasks = 1`.  A fresh run of the
same plan `Y` reports `successful_tasks = 1`. -/
theorem results_table_cross_run_cex :
    (execute_dag_from netNull ((execute_dag_from netNull [] planX).2.task_results) planY).1 =
      ExecOutcome.report
        { status := "completed", task_results := [("X", recOkNull), ("Y", recOkNull)],
          total_tasks := 1, successful_tasks := 2, failed_tasks := 0 } ∧
    (execute_dag_from netNull [] planY).1 =
      ExecOutcome.report
        { status := "completed", task_results := [("Y", recOkNull)],
          total_tasks := 1, successful_tasks := 1, failed_tasks := 0 } :=
  ⟨rfl, rfl⟩

/-- C10 amended: within one run of `execute_dag` (from any inherited
table) over a plan with distinct task ids, the results-table entry of
each task is written exactly once, at the moment the task's attempt
concludes: the write journal's keys are duplicate-free, and when a
report is returned every task of the plan has been written.  The table
itself, however, is scoped to the executor instance, not the run: a
second call on the same instance starts from the previous final table
(see the counterexample), while the module-level convenience function
creates a fresh executor per call. -/
theorem results_written_once_amended :
    (∀ (net : Net) (init : List (String × Val)) (po : PlannerOutput) (rep : ExecReport)
        (st' : ExecState),
        (po.dag.map (fun t => t.task_id)).Nodup →
        execute_dag_from net init po = (ExecOutcome.report rep, st') →
        (st'.journal.map Prod.fst).Nodup ∧
        ∀ t ∈ po.dag, t.task_id ∈ st'.journal.map Prod.fst) ∧
    (execute_dag_from netNull ((execute_dag_from netNull [] planX).2.task_results) planY).2.task_results =
      [("X", recOkNull), ("Y", recOkNull)] := by
  constructor
  · intro net init po rep st' hnd h
    obtain ⟨_hrep, hexnd, _hsub, _hkeys, hcov⟩ := execute_dag_from_report_facts net init po rep st' h
    have hj : st'.journal.map Prod.fst = st'.executed := by
      have hk := execute_dag_from_journal_keys net init po hnd
      rw [congrArg Prod.snd h] at hk
      exact hk
    rw [hj]
    exact ⟨hexnd, hcov⟩
  · rfl

/-- C10 witness: the write-once conjunct applied to the concrete one-task
run. -/
theorem results_written_once_amended_witness :
    ((execute_dag_from netNull [] planX).2.journal.map Prod.fst).Nodup :=
  (results_written_once_amended.1 netNull [] planX
    { status := "completed", task_results := [("X", recOkNull)],
      total_tasks := 1, successful_tasks := 1, failed_tasks := 0 }
    (execute_dag_from netNull [] planX).2 (by decide) rfl).1

end RealEstate
